import Mathlib

/-!
# libdns-vercel: the `Provider` record operations (`provider.go`)

A shallow embedding of `provider.go` and a verification of its documented
behaviour.

Modelling conventions.

* A Go `string` is an immutable sequence of bytes: `GoString := List UInt8`.
* A Go slice `[]libdns.Record` is a `List Record`; the `nil` slice and the
  empty slice are both the empty list.
* A Go `error` value is an `Option Err`: `none` is `nil`, `some e` is a
  non-nil error `e`.
* A Go function returning `(T, error)` returns a pair `T × Option Err`: both
  components are always present, as in Go.
* The transport helpers `getAllRecords`, `createRecord`, `deleteRecord` and
  `createOrUpdateRecord` live in another file of the package.  They talk to
  the provider over HTTP, so they are modelled as parameters: functions that
  take the positional arguments of the Go call together with the current
  state of the outside world (`World`) and return the Go results together
  with the next state of the world.  `libdns.Record`, `context.Context` and
  the error type are type parameters (`Record`, `Ctx`, `Err`).
* The `for ... range records` loops are structural recursions on the batch,
  with the loop-carried slice (`appendedRecords`, `setRecords`) as an
  accumulator.
-/

/-- A Go string: a sequence of bytes. -/
abbrev GoString := List UInt8

/-- The bytes (UTF-8) of a string literal. -/
def GoString.ofString (s : String) : GoString :=
  s.data.flatMap String.utf8EncodeChar

namespace strings

/-- Go `strings.HasSuffix`:
`len(s) >= len(suffix) && s[len(s)-len(suffix):] == suffix`. -/
def HasSuffix (s suffix : GoString) : Bool :=
  decide (s.length ≥ suffix.length) && (s.drop (s.length - suffix.length) == suffix)

/-- Go `strings.TrimSuffix`:
`if HasSuffix(s, suffix) { return s[:len(s)-len(suffix)] }; return s`. -/
def TrimSuffix (s suffix : GoString) : GoString :=
  if HasSuffix s suffix then s.take (s.length - suffix.length) else s

end strings

/-- Go `unFQDN` of `provider.go`: `return strings.TrimSuffix(fqdn, ".")`. -/
def unFQDN (fqdn : GoString) : GoString :=
  strings.TrimSuffix fqdn (GoString.ofString ".")

/-- Go `type Provider struct { AuthAPIToken string; TeamId string }`. -/
structure Provider where
  AuthAPIToken : GoString
  TeamId : GoString
deriving DecidableEq

/-- Type of `getAllRecords(ctx, token, zone, teamId) ([]libdns.Record, error)`
acting on the outside world. -/
abbrev GetAllFn (Ctx Record Err World : Type) : Type :=
  Ctx → GoString → GoString → GoString → World → (List Record × Option Err) × World

/-- Type of a helper called as `f(ctx, string, string, record, teamId)` and
returning `(libdns.Record, error)`: `createRecord` and `createOrUpdateRecord`. -/
abbrev RecordFn (Ctx Record Err World : Type) : Type :=
  Ctx → GoString → GoString → Record → GoString → World → (Record × Option Err) × World

/-- Type of `deleteRecord(ctx, string, string, record, teamId) error`. -/
abbrev DeleteFn (Ctx Record Err World : Type) : Type :=
  Ctx → GoString → GoString → Record → GoString → World → Option Err × World

section Operations

variable {Ctx Record Err World : Type}

/-- Go `(*Provider).GetRecords`: one call of `getAllRecords` on
`unFQDN(zone)`; `return nil, err` when `err != nil`, else `return records, nil`. -/
def Provider.GetRecords (getAllRecords : GetAllFn Ctx Record Err World)
    (p : Provider) (ctx : Ctx) (zone : GoString) (w : World) :
    (List Record × Option Err) × World :=
  match getAllRecords ctx p.AuthAPIToken (unFQDN zone) p.TeamId w with
  | ((records, none), w') => ((records, none), w')
  | ((_, some err), w') => (([], some err), w')

/-- The loop of `AppendRecords`, with `appendedRecords` as accumulator:
`return nil, err` on the first error, `return appendedRecords, nil` at the end. -/
def Provider.AppendRecords.loop (createRecord : RecordFn Ctx Record Err World)
    (p : Provider) (ctx : Ctx) (zone : GoString) :
    List Record → List Record → World → (List Record × Option Err) × World
  | [], appendedRecords, w => ((appendedRecords, none), w)
  | record :: rest, appendedRecords, w =>
    match createRecord ctx p.AuthAPIToken (unFQDN zone) record p.TeamId w with
    | ((newRecord, none), w') =>
      Provider.AppendRecords.loop createRecord p ctx zone rest (appendedRecords ++ [newRecord]) w'
    | ((_, some err), w') => (([], some err), w')

/-- Go `(*Provider).AppendRecords`: `var appendedRecords []libdns.Record`
(nil), then the loop. -/
def Provider.AppendRecords (createRecord : RecordFn Ctx Record Err World)
    (p : Provider) (ctx : Ctx) (zone : GoString) (records : List Record) (w : World) :
    (List Record × Option Err) × World :=
  Provider.AppendRecords.loop createRecord p ctx zone records [] w

/-- The loop of `DeleteRecords` over the remaining records; `records` is the
whole input slice, returned at the end. Note the argument order of the call:
`deleteRecord(ctx, unFQDN(zone), p.AuthAPIToken, record, p.TeamId)`. -/
def Provider.DeleteRecords.loop (deleteRecord : DeleteFn Ctx Record Err World)
    (p : Provider) (ctx : Ctx) (zone : GoString) (records : List Record) :
    List Record → World → (List Record × Option Err) × World
  | [], w => ((records, none), w)
  | record :: rest, w =>
    match deleteRecord ctx (unFQDN zone) p.AuthAPIToken record p.TeamId w with
    | (none, w') => Provider.DeleteRecords.loop deleteRecord p ctx zone records rest w'
    | (some err, w') => (([], some err), w')

/-- Go `(*Provider).DeleteRecords`. -/
def Provider.DeleteRecords (deleteRecord : DeleteFn Ctx Record Err World)
    (p : Provider) (ctx : Ctx) (zone : GoString) (records : List Record) (w : World) :
    (List Record × Option Err) × World :=
  Provider.DeleteRecords.loop deleteRecord p ctx zone records records w

/-- The loop of `SetRecords`, with `setRecords` as accumulator:
`return setRecords, err` on the first error, `return setRecords, nil` at the end. -/
def Provider.SetRecords.loop (createOrUpdateRecord : RecordFn Ctx Record Err World)
    (p : Provider) (ctx : Ctx) (zone : GoString) :
    List Record → List Record → World → (List Record × Option Err) × World
  | [], setRecords, w => ((setRecords, none), w)
  | record :: rest, setRecords, w =>
    match createOrUpdateRecord ctx p.AuthAPIToken (unFQDN zone) record p.TeamId w with
    | ((setRecord, none), w') =>
      Provider.SetRecords.loop createOrUpdateRecord p ctx zone rest (setRecords ++ [setRecord]) w'
    | ((_, some err), w') => ((setRecords, some err), w')

/-- Go `(*Provider).SetRecords`: `var setRecords []libdns.Record` (nil), then
the loop. -/
def Provider.SetRecords (createOrUpdateRecord : RecordFn Ctx Record Err World)
    (p : Provider) (ctx : Ctx) (zone : GoString) (records : List Record) (w : World) :
    (List Record × Option Err) × World :=
  Provider.SetRecords.loop createOrUpdateRecord p ctx zone records [] w

end Operations

/-! ## Observing the helper calls

A call of a transport helper is observed by wrapping the helper so that it
appends its own name and arguments to a log carried next to the world. The
operations are run unchanged on the wrapped helper. -/

/-- One call of a transport helper, with its arguments in the order of the
Go call. -/
inductive Call (Ctx Record : Type) where
  | getAllRecords (ctx : Ctx) (token zone teamId : GoString)
  | createRecord (ctx : Ctx) (token zone : GoString) (record : Record) (teamId : GoString)
  | deleteRecord (ctx : Ctx) (zone token : GoString) (record : Record) (teamId : GoString)
  | createOrUpdateRecord (ctx : Ctx) (token zone : GoString) (record : Record)
      (teamId : GoString)
deriving DecidableEq

section Tracing

variable {Ctx Record Err World : Type}

/-- The argument of a call that carries the zone: the one the operations
fill with `unFQDN(zone)`. -/
def Call.zone : Call Ctx Record → GoString
  | .getAllRecords _ _ zone _ => zone
  | .createRecord _ _ zone _ _ => zone
  | .deleteRecord _ zone _ _ _ => zone
  | .createOrUpdateRecord _ _ zone _ _ => zone

/-- The helper `getAllRecords`, logging each of its calls. -/
def traceGetAll (f : GetAllFn Ctx Record Err World) :
    GetAllFn Ctx Record Err (World × List (Call Ctx Record)) :=
  fun ctx token zone teamId s =>
    ((f ctx token zone teamId s.1).1,
      ((f ctx token zone teamId s.1).2, s.2 ++ [Call.getAllRecords ctx token zone teamId]))

/-- The helper `createRecord`, logging each of its calls. -/
def traceCreate (f : RecordFn Ctx Record Err World) :
    RecordFn Ctx Record Err (World × List (Call Ctx Record)) :=
  fun ctx token zone record teamId s =>
    ((f ctx token zone record teamId s.1).1,
      ((f ctx token zone record teamId s.1).2,
        s.2 ++ [Call.createRecord ctx token zone record teamId]))

/-- The helper `deleteRecord`, logging each of its calls. -/
def traceDelete (f : DeleteFn Ctx Record Err World) :
    DeleteFn Ctx Record Err (World × List (Call Ctx Record)) :=
  fun ctx zone token record teamId s =>
    ((f ctx zone token record teamId s.1).1,
      ((f ctx zone token record teamId s.1).2,
        s.2 ++ [Call.deleteRecord ctx zone token record teamId]))

/-- The helper `createOrUpdateRecord`, logging each of its calls. -/
def traceCreateOrUpdate (f : RecordFn Ctx Record Err World) :
    RecordFn Ctx Record Err (World × List (Call Ctx Record)) :=
  fun ctx token zone record teamId s =>
    ((f ctx token zone record teamId s.1).1,
      ((f ctx token zone record teamId s.1).2,
        s.2 ++ [Call.createOrUpdateRecord ctx token zone record teamId]))

end Tracing

/-! ## Sequential runs of a helper

What a helper answers, and what it leaves of the world, when it is called
once per record of a batch, in input order, each call starting from the
world the previous call left. These describe the helper, not the
operations. -/

section Runs

variable {α β World : Type}

/-- The answers of `step` to one call per element of the batch, in order. -/
def replies (step : α → World → β × World) : List α → World → List β
  | [], _ => []
  | a :: rest, w => (step a w).1 :: replies step rest (step a w).2

/-- The world after one call of `step` per element of the batch, in order. -/
def worldAfter (step : α → World → β × World) : List α → World → World
  | [], w => w
  | a :: rest, w => worldAfter step rest (step a w).2

end Runs

section Steps

variable {Ctx Record Err World : Type}

/-- The call `AppendRecords` makes for one record. -/
def Provider.createCall (createRecord : RecordFn Ctx Record Err World)
    (p : Provider) (ctx : Ctx) (zone : GoString) :
    Record → World → (Record × Option Err) × World :=
  fun record w => createRecord ctx p.AuthAPIToken (unFQDN zone) record p.TeamId w

/-- The call `DeleteRecords` makes for one record. -/
def Provider.deleteCall (deleteRecord : DeleteFn Ctx Record Err World)
    (p : Provider) (ctx : Ctx) (zone : GoString) :
    Record → World → Option Err × World :=
  fun record w => deleteRecord ctx (unFQDN zone) p.AuthAPIToken record p.TeamId w

/-- The call `SetRecords` makes for one record. -/
def Provider.setCall (createOrUpdateRecord : RecordFn Ctx Record Err World)
    (p : Provider) (ctx : Ctx) (zone : GoString) :
    Record → World → (Record × Option Err) × World :=
  fun record w => createOrUpdateRecord ctx p.AuthAPIToken (unFQDN zone) record p.TeamId w

end Steps

section TraceStep

variable {α β C World : Type}

/-- A per-record call that also appends `mk a` to the log carried next to
the world. -/
def traceStep (mk : α → C) (step : α → World → β × World) :
    α → World × List C → β × (World × List C) :=
  fun a s => ((step a s.1).1, ((step a s.1).2, s.2 ++ [mk a]))

end TraceStep

/-! ## A concrete provider

A small instance on which the statements below are evaluated: records and
errors are numbers, the context is trivial, and the world is the list of
records the provider holds. -/

/-- Credentials of the sample provider. -/
def sampleProvider : Provider :=
  { AuthAPIToken := GoString.ofString "tok", TeamId := GoString.ofString "team" }

/-- A `getAllRecords` that fails with error 503 on the zone `down.example`
(while still handing back what it had read) and lists the world otherwise. -/
def sampleGetAll : GetAllFn Unit Nat Nat (List Nat) :=
  fun _ _ zone _ w =>
    if zone = GoString.ofString "down.example" then ((w, some 503), w) else ((w, none), w)

/-- A `createRecord` that rejects record 13 with error 500 and otherwise
stores the record, returning it with 100 added (its provider-side form). -/
def sampleCreate : RecordFn Unit Nat Nat (List Nat) :=
  fun _ _ _ record _ w =>
    if record = 13 then ((0, some 500), w) else ((record + 100, none), w ++ [record])

/-- A `deleteRecord` that fails with error 500 on record 13 and otherwise
removes the record if the world holds it (and succeeds if it does not). -/
def sampleDelete : DeleteFn Unit Nat Nat (List Nat) :=
  fun _ _ _ record _ w =>
    if record = 13 then (some 500, w) else (none, w.erase record)

/-- A `createOrUpdateRecord` that rejects record 13 with error 500, updates in
place a record the world already holds, and creates any other record. -/
def sampleSet : RecordFn Unit Nat Nat (List Nat) :=
  fun _ _ _ record _ w =>
    if record = 13 then ((0, some 500), w)
    else if record ∈ w then ((record + 100, none), w)
    else ((record + 100, none), w ++ [record])

/-- A `createOrUpdateRecord` over the logged world that updates in place a
record the world already holds (issuing no create call) and otherwise issues
the create call of `sampleCreate`. -/
def sampleSetViaCreate : RecordFn Unit Nat Nat (List Nat × List (Call Unit Nat)) :=
  fun ctx token zone record teamId s =>
    if record ∈ s.1 then ((record + 100, none), s)
    else traceCreate sampleCreate ctx token zone record teamId s

/-! ## The domain normalizer `unFQDN` -/

theorem nil_or_snoc {α : Type} (s : List α) : s = [] ∨ ∃ t a, s = t ++ [a] := by
  rcases List.eq_nil_or_concat s with h | ⟨t, a, h⟩
  · exact Or.inl h
  · exact Or.inr ⟨t, a, by simpa using h⟩

theorem ofString_dot : GoString.ofString "." = [46] := by decide

theorem ofString_dotdot : GoString.ofString ".." = [46, 46] := by decide

theorem hasSuffix_concat_dot (t : GoString) (a : UInt8) :
    strings.HasSuffix (t ++ [a]) [46] = (a == 46) := by
  simp [strings.HasSuffix]

theorem unFQDN_nil : unFQDN [] = [] := by decide

theorem unFQDN_concat (t : GoString) (a : UInt8) :
    unFQDN (t ++ [a]) = if a = 46 then t else t ++ [a] := by
  simp [unFQDN, strings.TrimSuffix, ofString_dot, hasSuffix_concat_dot]

theorem dot_suffix_concat (t : GoString) (a : UInt8) :
    GoString.ofString "." <:+ t ++ [a] ↔ a = 46 := by
  rw [ofString_dot]
  constructor
  · rintro ⟨u, hu⟩
    have h := List.append_inj_right' hu rfl
    simpa using h.symm
  · rintro rfl
    exact List.suffix_append t [46]

theorem not_dot_suffix_nil : ¬ GoString.ofString "." <:+ ([] : GoString) := by
  rw [ofString_dot]
  rintro ⟨u, hu⟩
  simp at hu

theorem dotdot_suffix_concat_concat (t : GoString) (a b : UInt8) :
    GoString.ofString ".." <:+ t ++ [a] ++ [b] ↔ a = 46 ∧ b = 46 := by
  rw [ofString_dotdot]
  constructor
  · rintro ⟨u, hu⟩
    have h : [46, 46] = [a, b] := by
      have h2 : u ++ [46, 46] = t ++ [a, b] := by simpa using hu
      exact List.append_inj_right' h2 rfl
    simpa using h.symm
  · rintro ⟨rfl, rfl⟩
    exact ⟨t, by simp⟩

/-- The zone handed on by `unFQDN` ends with a dot exactly when the input
ends with two dots. -/
theorem dot_suffix_unFQDN_iff (s : GoString) :
    GoString.ofString "." <:+ unFQDN s ↔ GoString.ofString ".." <:+ s := by
  rcases nil_or_snoc s with rfl | ⟨t, b, rfl⟩
  · rw [unFQDN_nil, ofString_dot, ofString_dotdot]
    constructor <;> (rintro ⟨u, hu⟩; simp at hu)
  · rw [unFQDN_concat]
    by_cases hb : b = 46
    · subst hb
      simp only [if_true]
      rcases nil_or_snoc t with rfl | ⟨t2, a, rfl⟩
      · constructor
        · intro h
          exact absurd h not_dot_suffix_nil
        · rw [ofString_dotdot]
          rintro ⟨u, hu⟩
          have := congrArg List.length hu
          simp at this
      · rw [dot_suffix_concat, dotdot_suffix_concat_concat]
        simp
    · simp only [hb, if_false]
      rw [dot_suffix_concat]
      constructor
      · intro h
        exact absurd h hb
      · rw [ofString_dotdot]
        rintro ⟨u, hu⟩
        have h2 : u ++ [46] ++ [46] = t ++ [b] := by simpa using hu
        have h := List.append_inj_right' h2 rfl
        simp at h
        exact absurd h.symm hb

/-- A string ending with a dot loses exactly that byte. -/
theorem unFQDN_of_dot_suffix (s : GoString) (h : GoString.ofString "." <:+ s) :
    unFQDN s = s.dropLast ∧ unFQDN s ++ GoString.ofString "." = s := by
  rcases nil_or_snoc s with rfl | ⟨t, a, rfl⟩
  · exact absurd h not_dot_suffix_nil
  · have ha : a = 46 := (dot_suffix_concat t a).1 h
    subst ha
    simp [unFQDN_concat, ofString_dot]

/-- A string not ending with a dot is returned unchanged. -/
theorem unFQDN_of_not_dot_suffix (s : GoString) (h : ¬ GoString.ofString "." <:+ s) :
    unFQDN s = s := by
  rcases nil_or_snoc s with rfl | ⟨t, a, rfl⟩
  · exact unFQDN_nil
  · have ha : ¬ a = 46 := fun ha => h ((dot_suffix_concat t a).2 ha)
    simp [unFQDN_concat, ha]

/-- C1. `unFQDN` removes exactly one trailing dot: if `s` ends with `.` then
`unFQDN s` is `s` without its last byte, so that `unFQDN s ++ "." = s`; if `s`
does not end with `.` then `unFQDN s = s`. In particular
`unFQDN "example.com." = "example.com"` and
`unFQDN "example.com" = "example.com"`. -/
theorem unFQDN_removes_one_trailing_dot (s : GoString) :
    (GoString.ofString "." <:+ s →
        unFQDN s = s.dropLast ∧ unFQDN s ++ GoString.ofString "." = s) ∧
    (¬ GoString.ofString "." <:+ s → unFQDN s = s) ∧
    unFQDN (GoString.ofString "example.com.") = GoString.ofString "example.com" ∧
    unFQDN (GoString.ofString "example.com") = GoString.ofString "example.com" :=
  ⟨unFQDN_of_dot_suffix s, unFQDN_of_not_dot_suffix s, by decide, by decide⟩

/-- C1 at concrete inputs: `"www.example.com."` ends with a dot and loses
exactly that byte; `"www.example.com"` does not and is returned unchanged. -/
theorem unFQDN_removes_one_trailing_dot_witness :
    (GoString.ofString "." <:+ GoString.ofString "www.example.com.") ∧
    (unFQDN (GoString.ofString "www.example.com.")
        = (GoString.ofString "www.example.com.").dropLast ∧
      unFQDN (GoString.ofString "www.example.com.") ++ GoString.ofString "."
        = GoString.ofString "www.example.com.") ∧
    (¬ GoString.ofString "." <:+ GoString.ofString "www.example.com") ∧
    unFQDN (GoString.ofString "www.example.com") = GoString.ofString "www.example.com" :=
  ⟨by decide,
    (unFQDN_removes_one_trailing_dot (GoString.ofString "www.example.com.")).1 (by decide),
    by decide,
    (unFQDN_removes_one_trailing_dot (GoString.ofString "www.example.com")).2.1 (by decide)⟩

/-- C2, as stated, fails: on `"a.."` one application of `unFQDN` gives `"a."`
and a second one gives `"a"`. -/
theorem unFQDN_not_idempotent :
    unFQDN (GoString.ofString "a..") = GoString.ofString "a." ∧
    unFQDN (unFQDN (GoString.ofString "a..")) = GoString.ofString "a" ∧
    unFQDN (unFQDN (GoString.ofString "a..")) ≠ unFQDN (GoString.ofString "a..") := by
  decide

/-- C2, amended. `unFQDN` is idempotent on every string that does not end
with two dots: `unFQDN (unFQDN x) = unFQDN x`. -/
theorem unFQDN_idempotent_of_not_dotdot (x : GoString)
    (h : ¬ GoString.ofString ".." <:+ x) : unFQDN (unFQDN x) = unFQDN x :=
  unFQDN_of_not_dot_suffix (unFQDN x) (fun hd => h ((dot_suffix_unFQDN_iff x).1 hd))

/-- C2 amended, at `"example.com."`. -/
theorem unFQDN_idempotent_of_not_dotdot_witness :
    (¬ GoString.ofString ".." <:+ GoString.ofString "example.com.") ∧
    unFQDN (unFQDN (GoString.ofString "example.com."))
      = unFQDN (GoString.ofString "example.com.") :=
  ⟨by decide, unFQDN_idempotent_of_not_dotdot (GoString.ofString "example.com.") (by decide)⟩

/-! ## Sequential runs and their logs -/

section RunLemmas

variable {α β C World : Type}

theorem replies_length (step : α → World → β × World) (l : List α) (w : World) :
    (replies step l w).length = l.length := by
  induction l generalizing w with
  | nil => rfl
  | cons a rest ih => simp [replies, ih]

theorem replies_traceStep (mk : α → C) (step : α → World → β × World) (l : List α)
    (w : World) (log : List C) :
    replies (traceStep mk step) l (w, log) = replies step l w := by
  induction l generalizing w log with
  | nil => rfl
  | cons a rest ih => simp [replies, traceStep, ih]

theorem worldAfter_traceStep (mk : α → C) (step : α → World → β × World) (l : List α)
    (w : World) (log : List C) :
    worldAfter (traceStep mk step) l (w, log) = (worldAfter step l w, log ++ l.map mk) := by
  induction l generalizing w log with
  | nil => simp [worldAfter]
  | cons a rest ih => simp [worldAfter, traceStep, ih]

end RunLemmas

section SetLoop

variable {Ctx Record Err World : Type}

theorem createCall_trace (f : RecordFn Ctx Record Err World) (p : Provider) (ctx : Ctx)
    (zone : GoString) :
    p.createCall (traceCreate f) ctx zone
      = traceStep (fun r => Call.createRecord ctx p.AuthAPIToken (unFQDN zone) r p.TeamId)
          (p.createCall f ctx zone) := rfl

theorem deleteCall_trace (f : DeleteFn Ctx Record Err World) (p : Provider) (ctx : Ctx)
    (zone : GoString) :
    p.deleteCall (traceDelete f) ctx zone
      = traceStep (fun r => Call.deleteRecord ctx (unFQDN zone) p.AuthAPIToken r p.TeamId)
          (p.deleteCall f ctx zone) := rfl

theorem setCall_trace (f : RecordFn Ctx Record Err World) (p : Provider) (ctx : Ctx)
    (zone : GoString) :
    p.setCall (traceCreateOrUpdate f) ctx zone
      = traceStep
          (fun r => Call.createOrUpdateRecord ctx p.AuthAPIToken (unFQDN zone) r p.TeamId)
          (p.setCall f ctx zone) := rfl

/-- The loop of `SetRecords` when the helper first fails on record `k`. -/
theorem setLoop_fail (cou : RecordFn Ctx Record Err World) (p : Provider) (ctx : Ctx)
    (zone : GoString) (records acc : List Record) (w : World) (k : Nat) (e : Err)
    (hok : ∀ i, i < k →
      ((replies (p.setCall cou ctx zone) records w)[i]?).map Prod.snd = some none)
    (hfail : ((replies (p.setCall cou ctx zone) records w)[k]?).map Prod.snd
      = some (some e)) :
    Provider.SetRecords.loop cou p ctx zone records acc w
      = ((acc ++ ((replies (p.setCall cou ctx zone) records w).take k).map Prod.fst, some e),
          worldAfter (p.setCall cou ctx zone) (records.take (k + 1)) w) := by
  induction records generalizing acc w k with
  | nil => simp [replies] at hfail
  | cons r rest ih =>
    rcases hstep : cou ctx p.AuthAPIToken (unFQDN zone) r p.TeamId w with ⟨⟨x, err⟩, w'⟩
    have hs : p.setCall cou ctx zone r w = ((x, err), w') := hstep
    cases k with
    | zero =>
      have herr : err = some e := by simpa [replies, hs] using hfail
      subst herr
      simp [Provider.SetRecords.loop, hstep, replies, worldAfter, hs]
    | succ k =>
      have herr : err = none := by simpa [replies, hs] using hok 0 (Nat.succ_pos k)
      subst herr
      have hok2 : ∀ i, i < k →
          ((replies (p.setCall cou ctx zone) rest w')[i]?).map Prod.snd = some none := by
        intro i hi
        simpa [replies, hs] using hok (i + 1) (Nat.succ_lt_succ hi)
      have hfail2 : ((replies (p.setCall cou ctx zone) rest w')[k]?).map Prod.snd
          = some (some e) := by
        simpa [replies, hs] using hfail
      simp [Provider.SetRecords.loop, hstep, replies, worldAfter, hs,
        ih (acc ++ [x]) w' k hok2 hfail2]

end SetLoop

section AppendDeleteLoops

variable {Ctx Record Err World : Type}

/-- The loop of `AppendRecords` when `createRecord` first fails on record `k`. -/
theorem appendLoop_fail (create : RecordFn Ctx Record Err World) (p : Provider) (ctx : Ctx)
    (zone : GoString) (records acc : List Record) (w : World) (k : Nat) (e : Err)
    (hok : ∀ i, i < k →
      ((replies (p.createCall create ctx zone) records w)[i]?).map Prod.snd = some none)
    (hfail : ((replies (p.createCall create ctx zone) records w)[k]?).map Prod.snd
      = some (some e)) :
    Provider.AppendRecords.loop create p ctx zone records acc w
      = (([], some e), worldAfter (p.createCall create ctx zone) (records.take (k + 1)) w) := by
  induction records generalizing acc w k with
  | nil => simp [replies] at hfail
  | cons r rest ih =>
    rcases hstep : create ctx p.AuthAPIToken (unFQDN zone) r p.TeamId w with ⟨⟨x, err⟩, w'⟩
    have hs : p.createCall create ctx zone r w = ((x, err), w') := hstep
    cases k with
    | zero =>
      have herr : err = some e := by simpa [replies, hs] using hfail
      subst herr
      simp [Provider.AppendRecords.loop, hstep, worldAfter, hs]
    | succ k =>
      have herr : err = none := by simpa [replies, hs] using hok 0 (Nat.succ_pos k)
      subst herr
      have hok2 : ∀ i, i < k →
          ((replies (p.createCall create ctx zone) rest w')[i]?).map Prod.snd = some none := by
        intro i hi
        simpa [replies, hs] using hok (i + 1) (Nat.succ_lt_succ hi)
      have hfail2 : ((replies (p.createCall create ctx zone) rest w')[k]?).map Prod.snd
          = some (some e) := by
        simpa [replies, hs] using hfail
      simp [Provider.AppendRecords.loop, hstep, worldAfter, hs,
        ih (acc ++ [x]) w' k hok2 hfail2]

/-- The loop of `AppendRecords` when every call of `createRecord` succeeds. -/
theorem appendLoop_ok (create : RecordFn Ctx Record Err World) (p : Provider) (ctx : Ctx)
    (zone : GoString) (records acc : List Record) (w : World)
    (hok : ∀ x ∈ replies (p.createCall create ctx zone) records w, x.2 = none) :
    Provider.AppendRecords.loop create p ctx zone records acc w
      = ((acc ++ (replies (p.createCall create ctx zone) records w).map Prod.fst, none),
          worldAfter (p.createCall create ctx zone) records w) := by
  induction records generalizing acc w with
  | nil => simp [Provider.AppendRecords.loop, replies, worldAfter]
  | cons r rest ih =>
    rcases hstep : create ctx p.AuthAPIToken (unFQDN zone) r p.TeamId w with ⟨⟨x, err⟩, w'⟩
    have hs : p.createCall create ctx zone r w = ((x, err), w') := hstep
    have herr : err = none := by simpa [hs] using hok (x, err) (by simp [replies, hs])
    subst herr
    have hok2 : ∀ y ∈ replies (p.createCall create ctx zone) rest w', y.2 = none := by
      intro y hy
      exact hok y (by simp [replies, hs, hy])
    simp [Provider.AppendRecords.loop, hstep, replies, worldAfter, hs, ih (acc ++ [x]) w' hok2]

/-- The loop of `DeleteRecords` when `deleteRecord` first fails on record `k`. -/
theorem deleteLoop_fail (delete : DeleteFn Ctx Record Err World) (p : Provider) (ctx : Ctx)
    (zone : GoString) (all records : List Record) (w : World) (k : Nat) (e : Err)
    (hok : ∀ i, i < k → (replies (p.deleteCall delete ctx zone) records w)[i]? = some none)
    (hfail : (replies (p.deleteCall delete ctx zone) records w)[k]? = some (some e)) :
    Provider.DeleteRecords.loop delete p ctx zone all records w
      = (([], some e), worldAfter (p.deleteCall delete ctx zone) (records.take (k + 1)) w) := by
  induction records generalizing w k with
  | nil => simp [replies] at hfail
  | cons r rest ih =>
    rcases hstep : delete ctx (unFQDN zone) p.AuthAPIToken r p.TeamId w with ⟨err, w'⟩
    have hs : p.deleteCall delete ctx zone r w = (err, w') := hstep
    cases k with
    | zero =>
      have herr : err = some e := by simpa [replies, hs] using hfail
      subst herr
      simp [Provider.DeleteRecords.loop, hstep, worldAfter, hs]
    | succ k =>
      have herr : err = none := by simpa [replies, hs] using hok 0 (Nat.succ_pos k)
      subst herr
      have hok2 : ∀ i, i < k →
          (replies (p.deleteCall delete ctx zone) rest w')[i]? = some none := by
        intro i hi
        simpa [replies, hs] using hok (i + 1) (Nat.succ_lt_succ hi)
      have hfail2 : (replies (p.deleteCall delete ctx zone) rest w')[k]? = some (some e) := by
        simpa [replies, hs] using hfail
      simp [Provider.DeleteRecords.loop, hstep, worldAfter, hs, ih w' k hok2 hfail2]

/-- The loop of `DeleteRecords` when every call of `deleteRecord` succeeds. -/
theorem deleteLoop_ok (delete : DeleteFn Ctx Record Err World) (p : Provider) (ctx : Ctx)
    (zone : GoString) (all records : List Record) (w : World)
    (hok : ∀ x ∈ replies (p.deleteCall delete ctx zone) records w, x = none) :
    Provider.DeleteRecords.loop delete p ctx zone all records w
      = ((all, none), worldAfter (p.deleteCall delete ctx zone) records w) := by
  induction records generalizing w with
  | nil => simp [Provider.DeleteRecords.loop, worldAfter]
  | cons r rest ih =>
    rcases hstep : delete ctx (unFQDN zone) p.AuthAPIToken r p.TeamId w with ⟨err, w'⟩
    have hs : p.deleteCall delete ctx zone r w = (err, w') := hstep
    have herr : err = none := by simpa [hs] using hok err (by simp [replies, hs])
    subst herr
    have hok2 : ∀ y ∈ replies (p.deleteCall delete ctx zone) rest w', y = none := by
      intro y hy
      exact hok y (by simp [replies, hs, hy])
    simp [Provider.DeleteRecords.loop, hstep, worldAfter, hs, ih w' hok2]

/-- The index of a failing reply lies inside the batch. -/
theorem lt_length_of_reply {α β W : Type} (step : α → W → β × W) (l : List α) (w : W)
    (k : Nat) (b : β) (h : (replies step l w)[k]? = some b) : k < l.length := by
  have h2 : k < (replies step l w).length := by
    by_contra hc
    rw [List.getElem?_eq_none (Nat.le_of_not_lt hc)] at h
    exact Option.noConfusion h
  simpa [replies_length] using h2

end AppendDeleteLoops

section LogLemmas

variable {Ctx Record Err World : Type}

/-- Whatever `createRecord` answers, the calls `AppendRecords` logs are the
calls for an initial segment of the batch, in input order. -/
theorem appendLoop_log (f : RecordFn Ctx Record Err World) (p : Provider) (ctx : Ctx)
    (zone : GoString) (records acc : List Record) (s : World × List (Call Ctx Record)) :
    ∃ n, (Provider.AppendRecords.loop (traceCreate f) p ctx zone records acc s).2.2
        = s.2 ++ (records.take n).map
            (fun r => Call.createRecord ctx p.AuthAPIToken (unFQDN zone) r p.TeamId) ∧
      (records ≠ [] → 0 < n) := by
  induction records generalizing acc s with
  | nil => exact ⟨0, by simp [Provider.AppendRecords.loop], fun h => absurd rfl h⟩
  | cons r rest ih =>
    rcases hstep : f ctx p.AuthAPIToken (unFQDN zone) r p.TeamId s.1 with ⟨⟨x, err⟩, w'⟩
    cases err with
    | none =>
      obtain ⟨n, hn, _⟩ := ih (acc ++ [x])
        (w', s.2 ++ [Call.createRecord ctx p.AuthAPIToken (unFQDN zone) r p.TeamId])
      refine ⟨n + 1, ?_, fun _ => Nat.succ_pos n⟩
      simp [Provider.AppendRecords.loop, traceCreate, hstep]
      simpa using hn
    | some e =>
      refine ⟨1, ?_, fun _ => Nat.one_pos⟩
      simp [Provider.AppendRecords.loop, traceCreate, hstep]

/-- Whatever `deleteRecord` answers, the calls `DeleteRecords` logs are the
calls for an initial segment of the batch, in input order. -/
theorem deleteLoop_log (f : DeleteFn Ctx Record Err World) (p : Provider) (ctx : Ctx)
    (zone : GoString) (all records : List Record) (s : World × List (Call Ctx Record)) :
    ∃ n, (Provider.DeleteRecords.loop (traceDelete f) p ctx zone all records s).2.2
        = s.2 ++ (records.take n).map
            (fun r => Call.deleteRecord ctx (unFQDN zone) p.AuthAPIToken r p.TeamId) ∧
      (records ≠ [] → 0 < n) := by
  induction records generalizing s with
  | nil => exact ⟨0, by simp [Provider.DeleteRecords.loop], fun h => absurd rfl h⟩
  | cons r rest ih =>
    rcases hstep : f ctx (unFQDN zone) p.AuthAPIToken r p.TeamId s.1 with ⟨err, w'⟩
    cases err with
    | none =>
      obtain ⟨n, hn, _⟩ := ih
        (w', s.2 ++ [Call.deleteRecord ctx (unFQDN zone) p.AuthAPIToken r p.TeamId])
      refine ⟨n + 1, ?_, fun _ => Nat.succ_pos n⟩
      simp [Provider.DeleteRecords.loop, traceDelete, hstep]
      simpa using hn
    | some e =>
      refine ⟨1, ?_, fun _ => Nat.one_pos⟩
      simp [Provider.DeleteRecords.loop, traceDelete, hstep]

/-- Whatever `createOrUpdateRecord` answers, the calls `SetRecords` logs are
the calls for an initial segment of the batch, in input order. -/
theorem setLoop_log (f : RecordFn Ctx Record Err World) (p : Provider) (ctx : Ctx)
    (zone : GoString) (records acc : List Record) (s : World × List (Call Ctx Record)) :
    ∃ n, (Provider.SetRecords.loop (traceCreateOrUpdate f) p ctx zone records acc s).2.2
        = s.2 ++ (records.take n).map
            (fun r => Call.createOrUpdateRecord ctx p.AuthAPIToken (unFQDN zone) r p.TeamId) ∧
      (records ≠ [] → 0 < n) := by
  induction records generalizing acc s with
  | nil => exact ⟨0, by simp [Provider.SetRecords.loop], fun h => absurd rfl h⟩
  | cons r rest ih =>
    rcases hstep : f ctx p.AuthAPIToken (unFQDN zone) r p.TeamId s.1 with ⟨⟨x, err⟩, w'⟩
    cases err with
    | none =>
      obtain ⟨n, hn, _⟩ := ih (acc ++ [x])
        (w', s.2 ++ [Call.createOrUpdateRecord ctx p.AuthAPIToken (unFQDN zone) r p.TeamId])
      refine ⟨n + 1, ?_, fun _ => Nat.succ_pos n⟩
      simp [Provider.SetRecords.loop, traceCreateOrUpdate, hstep]
      simpa using hn
    | some e =>
      refine ⟨1, ?_, fun _ => Nat.one_pos⟩
      simp [Provider.SetRecords.loop, traceCreateOrUpdate, hstep]

/-- The one call `GetRecords` logs. -/
theorem getRecords_log (f : GetAllFn Ctx Record Err World) (p : Provider) (ctx : Ctx)
    (zone : GoString) (s : World × List (Call Ctx Record)) :
    (p.GetRecords (traceGetAll f) ctx zone s).2.2
      = s.2 ++ [Call.getAllRecords ctx p.AuthAPIToken (unFQDN zone) p.TeamId] := by
  rcases hstep : f ctx p.AuthAPIToken (unFQDN zone) p.TeamId s.1 with ⟨⟨l, err⟩, w'⟩
  cases err <;> simp [Provider.GetRecords, traceGetAll, hstep]

/-- As long as `createOrUpdateRecord` does on each record what `createRecord`
does, the loops of `SetRecords` and `AppendRecords` leave the same world and
return the same error; without an error they have appended the same records,
and with an error `AppendRecords` returns nothing. -/
theorem setLoop_appendLoop (create cou : RecordFn Ctx Record Err World) (p : Provider)
    (ctx : Ctx) (zone : GoString) (records accS accA : List Record) (w : World)
    (h : ∀ i r, records[i]? = some r →
      p.setCall cou ctx zone r (worldAfter (p.createCall create ctx zone) (records.take i) w)
        = p.createCall create ctx zone r
            (worldAfter (p.createCall create ctx zone) (records.take i) w)) :
    (Provider.SetRecords.loop cou p ctx zone records accS w).2
        = (Provider.AppendRecords.loop create p ctx zone records accA w).2 ∧
    (Provider.SetRecords.loop cou p ctx zone records accS w).1.2
        = (Provider.AppendRecords.loop create p ctx zone records accA w).1.2 ∧
    ((Provider.AppendRecords.loop create p ctx zone records accA w).1.2 = none →
        ∃ d, (Provider.SetRecords.loop cou p ctx zone records accS w).1.1 = accS ++ d ∧
          (Provider.AppendRecords.loop create p ctx zone records accA w).1.1 = accA ++ d) ∧
    (∀ e, (Provider.AppendRecords.loop create p ctx zone records accA w).1.2 = some e →
        (Provider.AppendRecords.loop create p ctx zone records accA w).1.1 = []) := by
  induction records generalizing accS accA w with
  | nil =>
    refine ⟨rfl, rfl, fun _ => ⟨[], by simp [Provider.SetRecords.loop],
      by simp [Provider.AppendRecords.loop]⟩, ?_⟩
    intro e he
    simp [Provider.AppendRecords.loop] at he
  | cons r rest ih =>
    have h0 := h 0 r (by simp)
    simp only [List.take_zero, worldAfter] at h0
    rcases hstep : create ctx p.AuthAPIToken (unFQDN zone) r p.TeamId w with ⟨⟨x, err⟩, w'⟩
    have hs : p.createCall create ctx zone r w = ((x, err), w') := hstep
    have hstep2 : cou ctx p.AuthAPIToken (unFQDN zone) r p.TeamId w = ((x, err), w') := by
      rw [← hs, ← h0]
      rfl
    cases err with
    | none =>
      have h2 : ∀ i r2, rest[i]? = some r2 →
          p.setCall cou ctx zone r2
              (worldAfter (p.createCall create ctx zone) (rest.take i) w')
            = p.createCall create ctx zone r2
              (worldAfter (p.createCall create ctx zone) (rest.take i) w') := by
        intro i r2 hi
        have := h (i + 1) r2 (by simpa using hi)
        simpa [worldAfter, hs] using this
      obtain ⟨ih1, ih2, ih3, ih4⟩ := ih (accS ++ [x]) (accA ++ [x]) w' h2
      simp only [Provider.SetRecords.loop, Provider.AppendRecords.loop, hstep, hstep2]
      refine ⟨ih1, ih2, ?_, ih4⟩
      intro hn
      obtain ⟨d, hd1, hd2⟩ := ih3 hn
      exact ⟨x :: d, by simpa using hd1, by simpa using hd2⟩
    | some e =>
      simp [Provider.SetRecords.loop, Provider.AppendRecords.loop, hstep, hstep2]

end LogLemmas

/-! ## The operations -/

section ZoneArgument

variable {Ctx Record Err World : Type}

/-- C3, as stated, fails: for the zone `"example.com.."` every operation
hands its helper the zone `"example.com."`, which ends with a dot. -/
theorem zone_argument_may_end_with_dot :
    ((sampleProvider.GetRecords (traceGetAll sampleGetAll) ()
        (GoString.ofString "example.com..") ([], [])).2.2.map Call.zone
      = [GoString.ofString "example.com."]) ∧
    ((sampleProvider.AppendRecords (traceCreate sampleCreate) ()
        (GoString.ofString "example.com..") [1] ([], [])).2.2.map Call.zone
      = [GoString.ofString "example.com."]) ∧
    ((sampleProvider.DeleteRecords (traceDelete sampleDelete) ()
        (GoString.ofString "example.com..") [1] ([], [])).2.2.map Call.zone
      = [GoString.ofString "example.com."]) ∧
    ((sampleProvider.SetRecords (traceCreateOrUpdate sampleSet) ()
        (GoString.ofString "example.com..") [1] ([], [])).2.2.map Call.zone
      = [GoString.ofString "example.com."]) ∧
    GoString.ofString "." <:+ GoString.ofString "example.com." := by
  decide

/-- C3, amended. For every zone that does not end with two dots, every
helper call that `GetRecords`, `AppendRecords`, `DeleteRecords` and
`SetRecords` issue carries the zone `unFQDN zone`, which does not end with a
dot; `GetRecords` issues exactly one such call, and the other three issue at
least one on a non-empty batch. -/
theorem zone_argument_has_no_trailing_dot
    (getAll : GetAllFn Ctx Record Err World) (create : RecordFn Ctx Record Err World)
    (delete : DeleteFn Ctx Record Err World) (cou : RecordFn Ctx Record Err World)
    (p : Provider) (ctx : Ctx) (zone : GoString) (records : List Record) (w : World)
    (h : ¬ GoString.ofString ".." <:+ zone) :
    ((p.GetRecords (traceGetAll getAll) ctx zone (w, [])).2.2.length = 1 ∧
      ∀ c ∈ (p.GetRecords (traceGetAll getAll) ctx zone (w, [])).2.2,
        c.zone = unFQDN zone ∧ ¬ GoString.ofString "." <:+ c.zone) ∧
    ((records ≠ [] → (p.AppendRecords (traceCreate create) ctx zone records (w, [])).2.2 ≠ []) ∧
      ∀ c ∈ (p.AppendRecords (traceCreate create) ctx zone records (w, [])).2.2,
        c.zone = unFQDN zone ∧ ¬ GoString.ofString "." <:+ c.zone) ∧
    ((records ≠ [] → (p.DeleteRecords (traceDelete delete) ctx zone records (w, [])).2.2 ≠ []) ∧
      ∀ c ∈ (p.DeleteRecords (traceDelete delete) ctx zone records (w, [])).2.2,
        c.zone = unFQDN zone ∧ ¬ GoString.ofString "." <:+ c.zone) ∧
    ((records ≠ [] →
        (p.SetRecords (traceCreateOrUpdate cou) ctx zone records (w, [])).2.2 ≠ []) ∧
      ∀ c ∈ (p.SetRecords (traceCreateOrUpdate cou) ctx zone records (w, [])).2.2,
        c.zone = unFQDN zone ∧ ¬ GoString.ofString "." <:+ c.zone) := by
  have hz : ¬ GoString.ofString "." <:+ unFQDN zone :=
    fun hd => h ((dot_suffix_unFQDN_iff zone).1 hd)
  refine ⟨?_, ?_, ?_, ?_⟩
  · rw [getRecords_log]
    refine ⟨by simp, ?_⟩
    intro c hc
    simp only [List.nil_append, List.mem_singleton] at hc
    subst hc
    exact ⟨rfl, hz⟩
  · obtain ⟨n, hn, hpos⟩ := appendLoop_log create p ctx zone records [] (w, [])
    unfold Provider.AppendRecords
    rw [hn]
    constructor
    · intro hne
      cases records with
      | nil => exact absurd rfl hne
      | cons r rest =>
        obtain ⟨m, rfl⟩ : ∃ m, n = m + 1 := ⟨n - 1, by have := hpos hne; omega⟩
        simp
    · intro c hc
      simp only [List.nil_append, List.mem_map] at hc
      obtain ⟨r, _, rfl⟩ := hc
      exact ⟨rfl, hz⟩
  · obtain ⟨n, hn, hpos⟩ := deleteLoop_log delete p ctx zone records records (w, [])
    unfold Provider.DeleteRecords
    rw [hn]
    constructor
    · intro hne
      cases records with
      | nil => exact absurd rfl hne
      | cons r rest =>
        obtain ⟨m, rfl⟩ : ∃ m, n = m + 1 := ⟨n - 1, by have := hpos hne; omega⟩
        simp
    · intro c hc
      simp only [List.nil_append, List.mem_map] at hc
      obtain ⟨r, _, rfl⟩ := hc
      exact ⟨rfl, hz⟩
  · obtain ⟨n, hn, hpos⟩ := setLoop_log cou p ctx zone records [] (w, [])
    unfold Provider.SetRecords
    rw [hn]
    constructor
    · intro hne
      cases records with
      | nil => exact absurd rfl hne
      | cons r rest =>
        obtain ⟨m, rfl⟩ : ∃ m, n = m + 1 := ⟨n - 1, by have := hpos hne; omega⟩
        simp
    · intro c hc
      simp only [List.nil_append, List.mem_map] at hc
      obtain ⟨r, _, rfl⟩ := hc
      exact ⟨rfl, hz⟩

/-- C3 amended, at the zone `"example.com."` and the batch `[1, 2]` on the
sample provider. -/
theorem zone_argument_has_no_trailing_dot_witness :
    (¬ GoString.ofString ".." <:+ GoString.ofString "example.com.") ∧
    ∀ c ∈ (sampleProvider.SetRecords (traceCreateOrUpdate sampleSet) ()
        (GoString.ofString "example.com.") [1, 2] ([], [])).2.2,
      c.zone = unFQDN (GoString.ofString "example.com.") ∧
        ¬ GoString.ofString "." <:+ c.zone :=
  ⟨by decide,
    (zone_argument_has_no_trailing_dot sampleGetAll sampleCreate sampleDelete sampleSet
      sampleProvider () (GoString.ofString "example.com.") [1, 2] [] (by decide)).2.2.2.2⟩

end ZoneArgument

section FailurePaths

variable {Ctx Record Err World : Type}

/-- C4. If `createOrUpdateRecord` succeeds on records `0..k-1` of the batch
and fails with `e` on record `k`, then `SetRecords` returns exactly the `k`
records produced for records `0..k-1`, in input order, together with the
error `e`, and the calls it issued are the calls for records `0..k`, in input
order, and no other. -/
theorem SetRecords_returns_processed_records_on_failure
    (cou : RecordFn Ctx Record Err World) (p : Provider) (ctx : Ctx) (zone : GoString)
    (records : List Record) (w : World) (k : Nat) (e : Err)
    (hok : ∀ i, i < k →
      ((replies (p.setCall cou ctx zone) records w)[i]?).map Prod.snd = some none)
    (hfail : ((replies (p.setCall cou ctx zone) records w)[k]?).map Prod.snd
      = some (some e)) :
    p.SetRecords cou ctx zone records w
      = ((((replies (p.setCall cou ctx zone) records w).take k).map Prod.fst, some e),
          worldAfter (p.setCall cou ctx zone) (records.take (k + 1)) w) ∧
    (p.SetRecords cou ctx zone records w).1.1.length = k ∧
    p.SetRecords (traceCreateOrUpdate cou) ctx zone records (w, [])
      = ((((replies (p.setCall cou ctx zone) records w).take k).map Prod.fst, some e),
          (worldAfter (p.setCall cou ctx zone) (records.take (k + 1)) w,
            (records.take (k + 1)).map
              (fun r => Call.createOrUpdateRecord ctx p.AuthAPIToken (unFQDN zone) r
                p.TeamId))) := by
  have hmain := setLoop_fail cou p ctx zone records [] w k e hok hfail
  have hk : k < records.length := by
    cases hr : (replies (p.setCall cou ctx zone) records w)[k]? with
    | none => simp [hr] at hfail
    | some b => exact lt_length_of_reply _ _ _ _ _ hr
  refine ⟨by simpa [Provider.SetRecords] using hmain, ?_, ?_⟩
  · unfold Provider.SetRecords
    rw [hmain]
    simp [replies_length]
    omega
  · have ht := setLoop_fail (traceCreateOrUpdate cou) p ctx zone records [] (w, []) k e
      (by simpa [setCall_trace, replies_traceStep] using hok)
      (by simpa [setCall_trace, replies_traceStep] using hfail)
    simpa [Provider.SetRecords, setCall_trace, replies_traceStep, worldAfter_traceStep]
      using ht

/-- C4 on the sample provider: in the batch `[1, 2, 13, 4]` the helper fails
on record 2 (0-based); the two records set before are returned with error
500 and record 4 is never attempted. -/
theorem SetRecords_returns_processed_records_on_failure_witness :
    (sampleProvider.SetRecords (traceCreateOrUpdate sampleSet) ()
        (GoString.ofString "example.com.") [1, 2, 13, 4] ([], [])).1 = ([101, 102], some 500) ∧
    (sampleProvider.SetRecords (traceCreateOrUpdate sampleSet) ()
        (GoString.ofString "example.com.") [1, 2, 13, 4] ([], [])).2.2.length = 3 := by
  have h := SetRecords_returns_processed_records_on_failure sampleSet sampleProvider ()
    (GoString.ofString "example.com.") [1, 2, 13, 4] [] 2 500 (by decide) (by decide)
  rw [h.2.2]
  exact ⟨by decide, by decide⟩

/-- C5, as stated, fails: in the batch `[1, 13, 3]` the set of the 1st record
succeeds and the set of the 2nd fails, and `SetRecords` returns a 1-element
result, not a 2-element one. -/
theorem SetRecords_second_of_three_fails_one_element :
    sampleProvider.setCall sampleSet () (GoString.ofString "example.com") 1 []
      = ((101, none), [1]) ∧
    sampleProvider.setCall sampleSet () (GoString.ofString "example.com") 13 [1]
      = ((0, some 500), [1]) ∧
    (sampleProvider.SetRecords sampleSet () (GoString.ofString "example.com") [1, 13, 3] []).1
      = ([101], some 500) ∧
    (sampleProvider.SetRecords sampleSet () (GoString.ofString "example.com")
      [1, 13, 3] []).1.1.length ≠ 2 := by
  decide

/-- C5, amended. For every batch of 3 records in which the set of the 1st
record succeeds and the set of the 2nd fails, `SetRecords` returns a
1-element result (the record produced for the 1st) plus the error of the 2nd
call, and the 3rd record is never attempted: the calls issued are those for
the 1st and the 2nd record. -/
theorem SetRecords_second_of_three_fails
    (cou : RecordFn Ctx Record Err World) (p : Provider) (ctx : Ctx) (zone : GoString)
    (r1 r2 r3 x1 x2 : Record) (w w1 w2 : World) (e : Err)
    (h1 : p.setCall cou ctx zone r1 w = ((x1, none), w1))
    (h2 : p.setCall cou ctx zone r2 w1 = ((x2, some e), w2)) :
    p.SetRecords cou ctx zone [r1, r2, r3] w = (([x1], some e), w2) ∧
    (p.SetRecords cou ctx zone [r1, r2, r3] w).1.1.length = 1 ∧
    p.SetRecords (traceCreateOrUpdate cou) ctx zone [r1, r2, r3] (w, [])
      = (([x1], some e),
          (w2, [Call.createOrUpdateRecord ctx p.AuthAPIToken (unFQDN zone) r1 p.TeamId,
                Call.createOrUpdateRecord ctx p.AuthAPIToken (unFQDN zone) r2 p.TeamId])) := by
  have h1' : cou ctx p.AuthAPIToken (unFQDN zone) r1 p.TeamId w = ((x1, none), w1) := h1
  have h2' : cou ctx p.AuthAPIToken (unFQDN zone) r2 p.TeamId w1 = ((x2, some e), w2) := h2
  have hS : p.SetRecords cou ctx zone [r1, r2, r3] w = (([x1], some e), w2) := by
    simp [Provider.SetRecords, Provider.SetRecords.loop, h1', h2']
  refine ⟨hS, by rw [hS]; rfl, ?_⟩
  simp [Provider.SetRecords, Provider.SetRecords.loop, traceCreateOrUpdate, h1', h2']

/-- C5 amended, on the sample provider and the batch `[1, 13, 3]`. -/
theorem SetRecords_second_of_three_fails_witness :
    sampleProvider.SetRecords sampleSet () (GoString.ofString "example.com") [1, 13, 3] []
      = (([101], some 500), [1]) :=
  (SetRecords_second_of_three_fails sampleSet sampleProvider ()
    (GoString.ofString "example.com") 1 13 3 101 0 [] [1] [1] 500 (by decide) (by decide)).1

/-- C6. If `createRecord` (resp. `deleteRecord`) succeeds on records `0..k-1`
of the batch and fails with `e` on record `k`, then `AppendRecords` (resp.
`DeleteRecords`) returns `e` with no records, and the calls it issued are
exactly one helper call for each of the records `0..k`, in input order: none
for a later record and no compensating call. -/
theorem AppendRecords_DeleteRecords_fail_fast
    (create : RecordFn Ctx Record Err World) (delete : DeleteFn Ctx Record Err World)
    (p : Provider) (ctx : Ctx) (zone : GoString) (records : List Record) (w : World)
    (k : Nat) (e : Err) :
    ((∀ i, i < k →
        ((replies (p.createCall create ctx zone) records w)[i]?).map Prod.snd = some none) →
      ((replies (p.createCall create ctx zone) records w)[k]?).map Prod.snd = some (some e) →
      p.AppendRecords create ctx zone records w
        = (([], some e), worldAfter (p.createCall create ctx zone) (records.take (k + 1)) w) ∧
      p.AppendRecords (traceCreate create) ctx zone records (w, [])
        = (([], some e),
            (worldAfter (p.createCall create ctx zone) (records.take (k + 1)) w,
              (records.take (k + 1)).map
                (fun r => Call.createRecord ctx p.AuthAPIToken (unFQDN zone) r p.TeamId))) ∧
      ((records.take (k + 1)).map
          (fun r => Call.createRecord ctx p.AuthAPIToken (unFQDN zone) r p.TeamId)).length
        = k + 1) ∧
    ((∀ i, i < k → (replies (p.deleteCall delete ctx zone) records w)[i]? = some none) →
      (replies (p.deleteCall delete ctx zone) records w)[k]? = some (some e) →
      p.DeleteRecords delete ctx zone records w
        = (([], some e), worldAfter (p.deleteCall delete ctx zone) (records.take (k + 1)) w) ∧
      p.DeleteRecords (traceDelete delete) ctx zone records (w, [])
        = (([], some e),
            (worldAfter (p.deleteCall delete ctx zone) (records.take (k + 1)) w,
              (records.take (k + 1)).map
                (fun r => Call.deleteRecord ctx (unFQDN zone) p.AuthAPIToken r p.TeamId))) ∧
      ((records.take (k + 1)).map
          (fun r => Call.deleteRecord ctx (unFQDN zone) p.AuthAPIToken r p.TeamId)).length
        = k + 1) := by
  constructor
  · intro hok hfail
    have hk : k < records.length := by
      cases hr : (replies (p.createCall create ctx zone) records w)[k]? with
      | none => simp [hr] at hfail
      | some b => exact lt_length_of_reply _ _ _ _ _ hr
    refine ⟨appendLoop_fail create p ctx zone records [] w k e hok hfail, ?_, ?_⟩
    · have ht := appendLoop_fail (traceCreate create) p ctx zone records [] (w, []) k e
        (by simpa [createCall_trace, replies_traceStep] using hok)
        (by simpa [createCall_trace, replies_traceStep] using hfail)
      simpa [Provider.AppendRecords, createCall_trace, worldAfter_traceStep] using ht
    · simp
      omega
  · intro hok hfail
    have hk : k < records.length := lt_length_of_reply _ _ _ _ _ hfail
    refine ⟨deleteLoop_fail delete p ctx zone records records w k e hok hfail, ?_, ?_⟩
    · have ht := deleteLoop_fail (traceDelete delete) p ctx zone records records (w, []) k e
        (by simpa [deleteCall_trace, replies_traceStep] using hok)
        (by simpa [deleteCall_trace, replies_traceStep] using hfail)
      simpa [Provider.DeleteRecords, deleteCall_trace, worldAfter_traceStep] using ht
    · simp
      omega

/-- C6 on the sample provider: in the batch `[1, 2, 13, 4]` the helper first
fails on record 2 (0-based); both operations return error 500 with no
records, leave the effect of the two earlier calls in the world, and have
issued three calls. -/
theorem AppendRecords_DeleteRecords_fail_fast_witness :
    (sampleProvider.AppendRecords sampleCreate () (GoString.ofString "example.com.")
        [1, 2, 13, 4] [] = (([], some 500), [1, 2])) ∧
    (sampleProvider.DeleteRecords sampleDelete () (GoString.ofString "example.com.")
        [1, 2, 13, 4] [1, 2, 4] = (([], some 500), [4])) := by
  have h := AppendRecords_DeleteRecords_fail_fast sampleCreate sampleDelete sampleProvider ()
    (GoString.ofString "example.com.") [1, 2, 13, 4]
  constructor
  · rw [((h [] 2 500).1 (by decide) (by decide)).1]
    decide
  · rw [((h [1, 2, 4] 2 500).2 (by decide) (by decide)).1]
    decide

end FailurePaths

section SuccessPaths

variable {Ctx Record Err World : Type}

/-- C7. If every call of `createRecord` on the batch succeeds, then
`AppendRecords` returns no error and the list, of the length of the batch,
whose i-th element is the record returned by the create call for the i-th
input record, and the calls it issued are exactly one create call per input
record, in input order. -/
theorem AppendRecords_returns_created_records
    (create : RecordFn Ctx Record Err World) (p : Provider) (ctx : Ctx) (zone : GoString)
    (records : List Record) (w : World)
    (hok : ∀ x ∈ replies (p.createCall create ctx zone) records w, x.2 = none) :
    p.AppendRecords create ctx zone records w
      = (((replies (p.createCall create ctx zone) records w).map Prod.fst, none),
          worldAfter (p.createCall create ctx zone) records w) ∧
    (p.AppendRecords create ctx zone records w).1.1.length = records.length ∧
    (∀ i : Nat, (p.AppendRecords create ctx zone records w).1.1[i]?
      = ((replies (p.createCall create ctx zone) records w)[i]?).map Prod.fst) ∧
    p.AppendRecords (traceCreate create) ctx zone records (w, [])
      = (((replies (p.createCall create ctx zone) records w).map Prod.fst, none),
          (worldAfter (p.createCall create ctx zone) records w,
            records.map
              (fun r => Call.createRecord ctx p.AuthAPIToken (unFQDN zone) r p.TeamId))) := by
  have hmain : p.AppendRecords create ctx zone records w
      = (((replies (p.createCall create ctx zone) records w).map Prod.fst, none),
          worldAfter (p.createCall create ctx zone) records w) := by
    simpa [Provider.AppendRecords] using appendLoop_ok create p ctx zone records [] w hok
  refine ⟨hmain, ?_, ?_, ?_⟩
  · rw [hmain]
    simp [replies_length]
  · intro i
    rw [hmain]
    simp
  · have ht := appendLoop_ok (traceCreate create) p ctx zone records [] (w, [])
      (by simpa [createCall_trace, replies_traceStep] using hok)
    simpa [Provider.AppendRecords, createCall_trace, replies_traceStep, worldAfter_traceStep]
      using ht

/-- C7 on the sample provider and the batch `[3, 1, 2]`. -/
theorem AppendRecords_returns_created_records_witness :
    sampleProvider.AppendRecords sampleCreate () (GoString.ofString "example.com.")
      [3, 1, 2] [7] = (([103, 101, 102], none), [7, 3, 1, 2]) := by
  rw [(AppendRecords_returns_created_records sampleCreate sampleProvider ()
    (GoString.ofString "example.com.") [3, 1, 2] [7] (by decide)).1]
  decide

/-- C8. `GetRecords` calls `getAllRecords` once, on the normalized zone. If
that call returns an error `e`, whatever record list accompanies it,
`GetRecords` returns `e` with an empty record list; if it returns no error,
`GetRecords` returns its record list unchanged and no error. -/
theorem GetRecords_no_incomplete_results
    (getAll : GetAllFn Ctx Record Err World) (p : Provider) (ctx : Ctx) (zone : GoString)
    (w : World) :
    (∀ e, (getAll ctx p.AuthAPIToken (unFQDN zone) p.TeamId w).1.2 = some e →
      p.GetRecords getAll ctx zone w
        = (([], some e), (getAll ctx p.AuthAPIToken (unFQDN zone) p.TeamId w).2)) ∧
    ((getAll ctx p.AuthAPIToken (unFQDN zone) p.TeamId w).1.2 = none →
      p.GetRecords getAll ctx zone w
        = (((getAll ctx p.AuthAPIToken (unFQDN zone) p.TeamId w).1.1, none),
            (getAll ctx p.AuthAPIToken (unFQDN zone) p.TeamId w).2)) ∧
    (p.GetRecords (traceGetAll getAll) ctx zone (w, [])).2.2
      = [Call.getAllRecords ctx p.AuthAPIToken (unFQDN zone) p.TeamId] := by
  refine ⟨?_, ?_, by simpa using getRecords_log getAll p ctx zone (w, [])⟩
  · intro e he
    rcases hstep : getAll ctx p.AuthAPIToken (unFQDN zone) p.TeamId w with ⟨⟨l, err⟩, w'⟩
    rw [hstep] at he
    simp only at he
    subst he
    simp [Provider.GetRecords, hstep]
  · intro he
    rcases hstep : getAll ctx p.AuthAPIToken (unFQDN zone) p.TeamId w with ⟨⟨l, err⟩, w'⟩
    rw [hstep] at he
    simp only at he
    subst he
    simp [Provider.GetRecords, hstep]

/-- C8 on the sample provider: on the zone `"down.example."` the helper hands
back the list `[1, 2]` together with error 503 and `GetRecords` returns the
empty list with error 503; on `"example.com."` the list is returned as is. -/
theorem GetRecords_no_incomplete_results_witness :
    (sampleGetAll () sampleProvider.AuthAPIToken (unFQDN (GoString.ofString "down.example."))
        sampleProvider.TeamId [1, 2]).1 = ([1, 2], some 503) ∧
    sampleProvider.GetRecords sampleGetAll () (GoString.ofString "down.example.") [1, 2]
      = (([], some 503), [1, 2]) ∧
    sampleProvider.GetRecords sampleGetAll () (GoString.ofString "example.com.") [1, 2]
      = (([1, 2], none), [1, 2]) := by
  refine ⟨by decide, ?_, ?_⟩
  · rw [(GetRecords_no_incomplete_results sampleGetAll sampleProvider ()
      (GoString.ofString "down.example.") [1, 2]).1 503 (by decide)]
    decide
  · rw [(GetRecords_no_incomplete_results sampleGetAll sampleProvider ()
      (GoString.ofString "example.com.") [1, 2]).2.1 (by decide)]
    decide

/-- C9, as stated, fails: with `createOrUpdateRecord` doing exactly what
`createRecord` does (the same logged helper is used for both), on the batch
`[1, 13]` the create for record 13 fails, and `SetRecords` returns the record
created for 1 while `AppendRecords` returns no record. -/
theorem SetRecords_AppendRecords_differ_on_failure :
    (sampleProvider.SetRecords (traceCreate sampleCreate) ()
        (GoString.ofString "example.com") [1, 13] ([], [])).1 = ([101], some 500) ∧
    (sampleProvider.AppendRecords (traceCreate sampleCreate) ()
        (GoString.ofString "example.com") [1, 13] ([], [])).1 = ([], some 500) ∧
    (sampleProvider.SetRecords (traceCreate sampleCreate) ()
        (GoString.ofString "example.com") [1, 13] ([], [])).1.1
      ≠ (sampleProvider.AppendRecords (traceCreate sampleCreate) ()
        (GoString.ofString "example.com") [1, 13] ([], [])).1.1 := by
  decide

/-- C9, amended. If for every record of the batch the create-or-update step
is a create (in the world the earlier creates have left,
`createOrUpdateRecord` does what the logged `createRecord` does), then
`SetRecords` issues the same create calls in the same order, leaves the same
world and returns the same error as `AppendRecords`; when no create fails the
two return the same record list, and when a create fails `AppendRecords`
returns an empty list. -/
theorem SetRecords_matches_AppendRecords_when_creating
    (create : RecordFn Ctx Record Err World)
    (cou : RecordFn Ctx Record Err (World × List (Call Ctx Record)))
    (p : Provider) (ctx : Ctx) (zone : GoString) (records : List Record) (w : World)
    (h : ∀ i r, records[i]? = some r →
      p.setCall cou ctx zone r
          (worldAfter (p.createCall (traceCreate create) ctx zone) (records.take i) (w, []))
        = p.createCall (traceCreate create) ctx zone r
          (worldAfter (p.createCall (traceCreate create) ctx zone) (records.take i) (w, []))) :
    (p.SetRecords cou ctx zone records (w, [])).2
        = (p.AppendRecords (traceCreate create) ctx zone records (w, [])).2 ∧
    (p.SetRecords cou ctx zone records (w, [])).1.2
        = (p.AppendRecords (traceCreate create) ctx zone records (w, [])).1.2 ∧
    ((p.AppendRecords (traceCreate create) ctx zone records (w, [])).1.2 = none →
      (p.SetRecords cou ctx zone records (w, [])).1.1
        = (p.AppendRecords (traceCreate create) ctx zone records (w, [])).1.1) ∧
    (∀ e, (p.AppendRecords (traceCreate create) ctx zone records (w, [])).1.2 = some e →
      (p.AppendRecords (traceCreate create) ctx zone records (w, [])).1.1 = []) := by
  obtain ⟨h1, h2, h3, h4⟩ :=
    setLoop_appendLoop (traceCreate create) cou p ctx zone records [] [] (w, []) h
  refine ⟨h1, h2, ?_, h4⟩
  intro hn
  obtain ⟨d, hd1, hd2⟩ := h3 hn
  unfold Provider.SetRecords Provider.AppendRecords
  rw [hd1, hd2]

/-- C9 amended, on the sample provider: the world holds record 9 only, so
neither record of the batch `[1, 2]` has a match. -/
theorem SetRecords_matches_AppendRecords_when_creating_witness :
    sampleProvider.SetRecords sampleSetViaCreate () (GoString.ofString "example.com")
        [1, 2] ([9], [])
      = sampleProvider.AppendRecords (traceCreate sampleCreate) ()
          (GoString.ofString "example.com") [1, 2] ([9], []) := by
  have h := SetRecords_matches_AppendRecords_when_creating sampleCreate sampleSetViaCreate
    sampleProvider () (GoString.ofString "example.com") [1, 2] [9] (by
      intro i r hi
      match i, hi with
      | 0, hi =>
        obtain rfl : 1 = r := by simpa using hi
        decide
      | 1, hi =>
        obtain rfl : 2 = r := by simpa using hi
        decide
      | n + 2, hi => simp at hi)
  exact Prod.ext (Prod.ext (h.2.2.1 (by decide)) h.2.1) h.1

/-- C10. If every call of `deleteRecord` on the batch returns no error, then
`DeleteRecords` returns no error and exactly the input record list, whatever
the world holds and whatever the calls did to it; the empty batch is returned
as is without any helper call. -/
theorem DeleteRecords_echoes_input
    (delete : DeleteFn Ctx Record Err World) (p : Provider) (ctx : Ctx) (zone : GoString)
    (records : List Record) (w : World) :
    ((∀ x ∈ replies (p.deleteCall delete ctx zone) records w, x = none) →
      p.DeleteRecords delete ctx zone records w
        = ((records, none), worldAfter (p.deleteCall delete ctx zone) records w) ∧
      p.DeleteRecords (traceDelete delete) ctx zone records (w, [])
        = ((records, none),
            (worldAfter (p.deleteCall delete ctx zone) records w,
              records.map
                (fun r => Call.deleteRecord ctx (unFQDN zone) p.AuthAPIToken r p.TeamId)))) ∧
    p.DeleteRecords delete ctx zone [] w = (([], none), w) ∧
    p.DeleteRecords (traceDelete delete) ctx zone [] (w, []) = (([], none), (w, [])) := by
  refine ⟨?_, rfl, rfl⟩
  intro hok
  refine ⟨deleteLoop_ok delete p ctx zone records records w hok, ?_⟩
  have ht := deleteLoop_ok (traceDelete delete) p ctx zone records records (w, [])
    (by simpa [deleteCall_trace, replies_traceStep] using hok)
  simpa [Provider.DeleteRecords, deleteCall_trace, worldAfter_traceStep] using ht

/-- C10 on the sample provider: the world holds record 1 only; deleting the
batch `[1, 2]` removes 1, finds no 2, and returns the batch `[1, 2]`. -/
theorem DeleteRecords_echoes_input_witness :
    sampleProvider.DeleteRecords sampleDelete () (GoString.ofString "example.com.")
      [1, 2] [1] = (([1, 2], none), []) := by
  rw [((DeleteRecords_echoes_input sampleDelete sampleProvider ()
    (GoString.ofString "example.com.") [1, 2] [1]).1 (by decide)).1]
  decide

end SuccessPaths
